import Mathlib

/-!
Verification of the window abstraction layer in `src/fractals/src/window.hpp`
(`namespace mono`). The embedding models:

* `std::unordered_map` as an association list with C++ semantics:
  `insert` does not overwrite an existing key, `erase` of an absent key is a
  no-op, `find` returns the unique entry for a key (entries have unique keys
  under the operations used by the code, and the model's `mset1` mutates the
  mapped value in place exactly like writing through an iterator).
* a callable object as a pair of its storage address (`addr`, the value the
  code casts to `std::size_t`) and its behaviour (`value`, what `event_fn{func}`
  captures); two live distinct callable objects have distinct addresses.
* the GLFW backend state reachable from this header as a small record
  (`should_close` flag read by `glfwWindowShouldClose`, and the last position
  request recorded by `glfwSetWindowPos`).
* `std::int32_t` as `Int` (no arithmetic in this header can overflow), with the
  `INT32_MIN` sentinel spelled out.
* the `event_type` enumeration (declared in `event.hpp`, an external
  collaborator) as `Nat`: the code only ever compares event types for equality.
-/

/-- The C++ `INT32_MIN` constant used as the "let the backend choose" position
sentinel in `window_props`. -/
def INT32_MIN : Int := -(2 ^ 31)

/-- `mono::window_props` from `window.hpp` lines 26-32, with the member
initializers of the source as Lean default values. -/
structure window_props where
  title : String := "no title"
  width : Int := 738
  height : Int := 480
  xpos : Int := INT32_MIN
  ypos : Int := INT32_MIN
  deriving Repr, DecidableEq

/-- A C++ callable object as the listener-registration code sees it: its
storage address (what `(std::size_t)&func` computes) and its behaviour
(what `event_fn{func}` stores). Structurally identical but distinct callables
share `value` but differ in `addr`. -/
structure Callable where
  addr : Nat
  value : Nat
  deriving Repr, DecidableEq

/-- `std::unordered_map::find` on the association-list model: the mapped value
of the unique entry for key `a`, if present. -/
def mfind {α β : Type} [DecidableEq α] : List (α × β) → α → Option β
  | [], _ => none
  | (k, v) :: t, a => if k = a then some v else mfind t a

/-- `std::unordered_map::insert`: inserts `(a, b)` only when no entry for `a`
exists; an existing entry is left untouched (C++ `insert` never overwrites). -/
def minsert {α β : Type} [DecidableEq α] (l : List (α × β)) (a : α) (b : β) :
    List (α × β) :=
  if (mfind l a).isSome then l else (a, b) :: l

/-- `std::unordered_map::erase(key)`: removes the entry for `a` when present,
no-op otherwise. -/
def merase {α β : Type} [DecidableEq α] : List (α × β) → α → List (α × β)
  | [], _ => []
  | (k, v) :: t, a => if k = a then merase t a else (k, v) :: merase t a

/-- Writing a new mapped value through an iterator / `operator[]` reference:
replaces the mapped value of the first entry for `a`, leaving the rest of the
map untouched. -/
def mset1 {α β : Type} [DecidableEq α] : List (α × β) → α → β → List (α × β)
  | [], _, _ => []
  | (k, v) :: t, a, b => if k = a then (a, b) :: t else (k, v) :: mset1 t a b

/-- The GLFW backend state observable through the calls this header makes on
`m_window`: the close-requested flag and the last `glfwSetWindowPos` request. -/
structure glfw_window where
  should_close : Bool
  pos_request : Int × Int
  deriving Repr, DecidableEq

/-- `glfwWindowShouldClose`: reads the backend's close-requested flag. -/
def glfwWindowShouldClose (g : glfw_window) : Bool := g.should_close

/-- `glfwSetWindowPos`: forwards a position request to the backend (the
backend may later reject or apply it; this header never reads it back). -/
def glfwSetWindowPos (g : glfw_window) (x y : Int) : glfw_window :=
  { g with pos_request := (x, y) }

/-- Modelled from the spec: `state::key` and `ref` (a shared pointer alias)
are declared in `input.hpp`/`mono.hpp`, which are not among the provided
sources. Per the spec, a KeyState "wraps one key code" with "shared
ownership"; the model keeps one allocation record per `state::key::make`
call: the wrapped code and the number of references held outside the window
(`state::key::make` returns the caller's non-null reference, so a fresh
object starts with one external holder). -/
structure keyObj where
  key : Int
  extRefs : Nat
  deriving Repr, DecidableEq

/-- The `window::data` block of `window.hpp` lines 99-110: mirrored geometry
plus the per-type listener registry
(`unordered_map<event_type, unordered_map<size_t, event_fn>>`). -/
structure wdata where
  title : String
  width : Int
  height : Int
  buffer_width : Int
  buffer_height : Int
  xpos : Int
  ypos : Int
  events : List (Nat × List (Nat × Nat))
  deriving Repr, DecidableEq

/-- The `mono::window` object: the native handle's observable backend state
(`m_window`), the retained KeyState references (`m_keys`, a vector of shared
references modelled as indices into the allocation list `heap`), and the
mirrored `data` block (`m_data`). A reference is non-null exactly when its
index lies inside `heap`. -/
structure Window where
  m_window : glfw_window
  heap : List keyObj
  m_keys : List Nat
  m_data : wdata
  deriving Repr, DecidableEq

/-- `window::width`: pure read of the mirrored logical width. -/
def window.width (w : Window) : Int := w.m_data.width

/-- `window::height`: pure read of the mirrored logical height. -/
def window.height (w : Window) : Int := w.m_data.height

/-- `window::buffer_width`: pure read of the mirrored framebuffer width. -/
def window.buffer_width (w : Window) : Int := w.m_data.buffer_width

/-- `window::buffer_height`: pure read of the mirrored framebuffer height. -/
def window.buffer_height (w : Window) : Int := w.m_data.buffer_height

/-- `window::xpos`: pure read of the mirrored x position. -/
def window.xpos (w : Window) : Int := w.m_data.xpos

/-- `window::ypos`: pure read of the mirrored y position. -/
def window.ypos (w : Window) : Int := w.m_data.ypos

/-- `window::shouldclose`: `return glfwWindowShouldClose(m_window);` — a
direct backend query, not a read of `m_data`. -/
def window.shouldclose (w : Window) : Bool := glfwWindowShouldClose w.m_window

/-- `window::set_position(x, y)`: `glfwSetWindowPos(m_window, x, y);` — the
only effect is the backend call; `m_data` is untouched. -/
def window.set_position (w : Window) (x y : Int) : Window :=
  { w with m_window := glfwSetWindowPos w.m_window x y }

/-- `window::add_event_listener(type, func)` from `window.hpp` lines 56-67:
derives the identity `id = (std::size_t)&func`; if no inner map exists for
`type`, builds a fresh one holding `{id, event_fn{func}}` and inserts it under
`type`; otherwise inserts `{id, event_fn{func}}` into the existing inner map
(a no-op when `id` is already a key). Returns `id`. -/
def window.add_event_listener (w : Window) (ty : Nat) (func : Callable) :
    Window × Nat :=
  let id := func.addr
  match mfind w.m_data.events ty with
  | none =>
    let fns := minsert ([] : List (Nat × Nat)) id func.value
    let ev := minsert w.m_data.events ty fns
    ({ w with m_data := { w.m_data with events := ev } }, id)
  | some m =>
    let ev := mset1 w.m_data.events ty (minsert m id func.value)
    ({ w with m_data := { w.m_data with events := ev } }, id)

/-- `window::remove_event_listener(type, func)` from `window.hpp` lines 68-74:
derives `id = (std::size_t)&func`; if an inner map exists for `type`, erases
the entry for `id` from it (in place, through the iterator); otherwise does
nothing. -/
def window.remove_event_listener (w : Window) (ty : Nat) (func : Callable) :
    Window :=
  let id := func.addr
  match mfind w.m_data.events ty with
  | none => w
  | some m =>
    let ev := mset1 w.m_data.events ty (merase m id)
    { w with m_data := { w.m_data with events := ev } }

/-- The callback registered in window `w` under event type `ty` with listener
identity `id`, if any. -/
def lookup_listener (w : Window) (ty : Nat) (id : Nat) : Option Nat :=
  match mfind w.m_data.events ty with
  | none => none
  | some m => mfind m id

/-- `window::make_key(key)` from `window.hpp` lines 79-82:
`m_keys.push_back(state::key::make(key)); return m_keys.back();` — allocates
a fresh shared KeyState wrapping `key`, appends the window's retained
reference to `m_keys`, and returns a reference to the same object. -/
def window.make_key (w : Window) (k : Int) : Window × Nat :=
  let idx := w.heap.length
  ({ w with heap := w.heap ++ [⟨k, 1⟩], m_keys := w.m_keys ++ [idx] }, idx)

/-- The allocation record a reference points at (a default when the reference
is null, i.e. out of range). -/
def heapObj (w : Window) (i : Nat) : keyObj := w.heap.getD i ⟨0, 0⟩

/-- An external holder releases its shared reference `i`: the allocation's
external count drops by one; the window's own retained references in `m_keys`
are unaffected. -/
def release_ext (w : Window) (i : Nat) : Window :=
  { w with heap := w.heap.set i { heapObj w i with extRefs := (heapObj w i).extRefs - 1 } }

/-- A KeyState object is alive while some reference to it remains: either a
retained one in `m_keys` or an external holder. -/
def keyAlive (w : Window) (i : Nat) : Prop :=
  i < w.heap.length ∧ 0 < w.m_keys.count i + (heapObj w i).extRefs

/-- A sequence of `make_key` calls with the given key codes. -/
def run_make_keys (w : Window) (ks : List Int) : Window :=
  ks.foldl (fun acc k => (window.make_key acc k).1) w

/-- `window::str` from `window.hpp` lines 85-93, accumulating the pieces with
`+=` exactly as the source does. -/
def window.str (w : Window) : String :=
  let s := "mono::window \x7b "
  let s := s ++ ("title: \"" ++ w.m_data.title ++ "\", ")
  let s := s ++ ("width: " ++ toString w.m_data.width ++ ", ")
  let s := s ++ ("height: " ++ toString w.m_data.height ++ ", ")
  let s := s ++ ("buffer_width: " ++ toString w.m_data.buffer_width ++ ", ")
  let s := s ++ ("buffer_height: " ++ toString w.m_data.buffer_height ++ " \x7d")
  s

/-- The single-line rendering exactly as the spec words it:
`mono::window { title: "<t>", width: <w>, height: <h>, buffer_width: <bw>,
buffer_height: <bh> }`. -/
def spec_str (t : String) (wd h bw bh : Int) : String :=
  "mono::window \x7b title: \"" ++ t ++ "\", width: " ++ toString wd ++
    ", height: " ++ toString h ++ ", buffer_width: " ++ toString bw ++
    ", buffer_height: " ++ toString bh ++ " \x7d"

/-- A concrete window for witnesses: default properties mirrored, empty
listener registry, no keys. -/
def w0 : Window :=
  { m_window := { should_close := false, pos_request := (0, 0) }
    heap := []
    m_keys := []
    m_data :=
      { title := "no title", width := 738, height := 480,
        buffer_width := 738, buffer_height := 480,
        xpos := 0, ypos := 0, events := [] } }

theorem mfind_minsert_self {α β : Type} [DecidableEq α] (l : List (α × β))
    (a : α) (b : β) (h : mfind l a = none) : mfind (minsert l a b) a = some b := by
  simp [minsert, h, mfind]

theorem merase_absent {α β : Type} [DecidableEq α] (l : List (α × β)) (a : α)
    (h : mfind l a = none) : merase l a = l := by
  induction l with
  | nil => rfl
  | cons p t ih =>
    obtain ⟨k, v⟩ := p
    by_cases hk : k = a
    · simp [mfind, hk] at h
    · simp only [mfind, hk, if_false] at h
      simp [merase, hk, ih h]

theorem mfind_merase {α β : Type} [DecidableEq α] (l : List (α × β)) (a c : α) :
    mfind (merase l a) c = if c = a then none else mfind l c := by
  induction l with
  | nil => simp [merase, mfind]
  | cons p t ih =>
    obtain ⟨k, v⟩ := p
    by_cases hk : k = a
    · subst hk
      rw [show merase ((k, v) :: t) k = merase t k by simp [merase], ih]
      by_cases hc : c = k
      · simp [hc]
      · have hck : ¬k = c := fun h => hc (Eq.symm h)
        simp [hc, hck, mfind]
    · rw [show merase ((k, v) :: t) a = (k, v) :: merase t a by simp [merase, hk]]
      by_cases hkc : k = c
      · subst hkc
        have hca : ¬k = a := hk
        simp [mfind, hca]
      · simp [mfind, hkc, ih]

theorem mset1_self {α β : Type} [DecidableEq α] (l : List (α × β)) (a : α)
    (b : β) (h : mfind l a = some b) : mset1 l a b = l := by
  induction l with
  | nil => rfl
  | cons p t ih =>
    obtain ⟨k, v⟩ := p
    by_cases hk : k = a
    · subst hk
      simp only [mfind, if_true, eq_self_iff_true] at h
      injection h with h
      simp [mset1, h]
    · simp only [mfind, hk, if_false] at h
      simp [mset1, hk, ih h]

theorem mfind_mset1_self {α β : Type} [DecidableEq α] (l : List (α × β))
    (a : α) (b c : β) (h : mfind l a = some c) :
    mfind (mset1 l a b) a = some b := by
  induction l with
  | nil => simp [mfind] at h
  | cons p t ih =>
    obtain ⟨k, v⟩ := p
    by_cases hk : k = a
    · subst hk
      simp [mset1, mfind]
    · simp only [mfind, hk, if_false] at h
      simp [mset1, mfind, hk, ih h]

theorem add_ret (w : Window) (ty : Nat) (f : Callable) :
    (window.add_event_listener w ty f).2 = f.addr := by
  unfold window.add_event_listener
  cases mfind w.m_data.events ty <;> rfl

theorem lookup_after_add (w : Window) (ty : Nat) (f : Callable)
    (h : lookup_listener w ty f.addr = none) :
    ∃ m, mfind (window.add_event_listener w ty f).1.m_data.events ty = some m ∧
      mfind m f.addr = some f.value := by
  unfold lookup_listener at h
  cases he : mfind w.m_data.events ty with
  | none =>
    refine ⟨minsert [] f.addr f.value, ?_, ?_⟩
    · simp [window.add_event_listener, he, minsert, mfind]
    · simp [minsert, mfind]
  | some m =>
    rw [he] at h
    refine ⟨minsert m f.addr f.value, ?_, ?_⟩
    · simp only [window.add_event_listener, he]
      exact mfind_mset1_self _ _ _ _ he
    · exact mfind_minsert_self _ _ _ h

/-- C3: for every window, `window::str` returns exactly the single-line string
`mono::window { title: "<t>", width: <w>, height: <h>, buffer_width: <bw>,
buffer_height: <bh> }` built from the mirrored title, width, height,
buffer_width and buffer_height, with exactly this field order and labels
(`spec_str` spells the spec's format). -/
theorem c3_str_format (w : Window) :
    window.str w = spec_str w.m_data.title w.m_data.width w.m_data.height
      w.m_data.buffer_width w.m_data.buffer_height := by
  have e1 : ("mono::window \x7b title: \"" : String)
      = "mono::window \x7b " ++ "title: \"" := rfl
  have e2 : ("\", width: " : String) = "\", " ++ "width: " := rfl
  have e3 : (", height: " : String) = ", " ++ "height: " := rfl
  have e4 : (", buffer_width: " : String) = ", " ++ "buffer_width: " := rfl
  have e5 : (", buffer_height: " : String) = ", " ++ "buffer_height: " := rfl
  simp only [window.str, spec_str, e1, e2, e3, e4, e5, String.append_assoc]

/-- C4: a default-constructed `window_props` has width 738, height 480, and
both position fields equal to the `INT32_MIN` "let the backend choose"
sentinel; the record also carries the title field (defaulted to
`"no title"`). -/
theorem c4_props_defaults :
    ({} : window_props).width = 738 ∧ ({} : window_props).height = 480 ∧
    ({} : window_props).xpos = INT32_MIN ∧
    ({} : window_props).ypos = INT32_MIN ∧
    ({} : window_props).title = "no title" :=
  ⟨rfl, rfl, rfl, rfl, rfl⟩

/-- C5: `set_position(x, y)` forwards the request to the backend
(`glfwSetWindowPos`) and changes nothing else: the mirrored `data` block —
in particular `xpos`/`ypos` — and every other member are unchanged
synchronously. -/
theorem c5_set_position_async (w : Window) (x y : Int) :
    (window.set_position w x y).m_data = w.m_data ∧
    (window.set_position w x y).m_window = glfwSetWindowPos w.m_window x y ∧
    window.xpos (window.set_position w x y) = window.xpos w ∧
    window.ypos (window.set_position w x y) = window.ypos w ∧
    (window.set_position w x y).m_keys = w.m_keys ∧
    (window.set_position w x y).heap = w.heap :=
  ⟨rfl, rfl, rfl, rfl, rfl, rfl⟩

/-- C8: the six geometry queries return exactly the corresponding field of the
mirrored `data` block (so they depend only on `m_data` and touch no state),
while `shouldclose` is the one query answered by the backend directly
(`glfwWindowShouldClose` on `m_window`), independent of the mirrored data. -/
theorem c8_pure_reads (w v : Window) :
    window.width w = w.m_data.width ∧
    window.height w = w.m_data.height ∧
    window.buffer_width w = w.m_data.buffer_width ∧
    window.buffer_height w = w.m_data.buffer_height ∧
    window.xpos w = w.m_data.xpos ∧
    window.ypos w = w.m_data.ypos ∧
    window.shouldclose w = glfwWindowShouldClose w.m_window ∧
    (v.m_data = w.m_data →
      window.width v = window.width w ∧ window.height v = window.height w ∧
      window.buffer_width v = window.buffer_width w ∧
      window.buffer_height v = window.buffer_height w ∧
      window.xpos v = window.xpos w ∧ window.ypos v = window.ypos w) ∧
    (v.m_window = w.m_window → window.shouldclose v = window.shouldclose w) := by
  refine ⟨rfl, rfl, rfl, rfl, rfl, rfl, rfl, ?_, ?_⟩
  · intro h
    simp [window.width, window.height, window.buffer_width,
      window.buffer_height, window.xpos, window.ypos, h]
  · intro h
    simp [window.shouldclose, h]

/-- A window agreeing with `w0` on the whole mirrored data block but with a
different backend state, heap and retained key list (used as a witness
input). -/
def w0same : Window :=
  { m_window := { should_close := true, pos_request := (4, 4) }
    heap := [⟨65, 2⟩]
    m_keys := [0]
    m_data := w0.m_data }

theorem c8_pure_reads_witness :
    w0same.m_data = w0.m_data ∧ w0same.m_window = w0same.m_window ∧
    (window.width w0same = window.width w0 ∧
      window.height w0same = window.height w0 ∧
      window.buffer_width w0same = window.buffer_width w0 ∧
      window.buffer_height w0same = window.buffer_height w0 ∧
      window.xpos w0same = window.xpos w0 ∧
      window.ypos w0same = window.ypos w0) ∧
    window.shouldclose w0same = window.shouldclose w0same :=
  ⟨rfl, rfl, (c8_pure_reads w0 w0same).2.2.2.2.2.2.2.1 rfl,
    (c8_pure_reads w0same w0same).2.2.2.2.2.2.2.2 rfl⟩

/-- C10: `str` depends only on the mirrored title, width, height,
buffer_width and buffer_height: two windows agreeing on those five fields
render identically, whatever their positions, listener registries, key lists
or backend state. -/
theorem c10_str_noninterference (a b : Window)
    (ht : a.m_data.title = b.m_data.title)
    (hw : a.m_data.width = b.m_data.width)
    (hh : a.m_data.height = b.m_data.height)
    (hbw : a.m_data.buffer_width = b.m_data.buffer_width)
    (hbh : a.m_data.buffer_height = b.m_data.buffer_height) :
    window.str a = window.str b := by
  simp [window.str, ht, hw, hh, hbw, hbh]

/-- A window agreeing with `w0` on the five rendered fields but differing in
position, listener registry, key list and backend state (used as a witness
input). -/
def w0alt : Window :=
  { m_window := { should_close := true, pos_request := (9, 9) }
    heap := [⟨3, 2⟩]
    m_keys := [0]
    m_data :=
      { title := "no title", width := 738, height := 480,
        buffer_width := 738, buffer_height := 480,
        xpos := 5, ypos := 6, events := [(0, [(1, 2)])] } }

theorem c10_str_noninterference_witness :
    w0.m_data.title = w0alt.m_data.title ∧
    w0.m_data.width = w0alt.m_data.width ∧
    w0.m_data.height = w0alt.m_data.height ∧
    w0.m_data.buffer_width = w0alt.m_data.buffer_width ∧
    w0.m_data.buffer_height = w0alt.m_data.buffer_height ∧
    window.str w0 = window.str w0alt :=
  ⟨rfl, rfl, rfl, rfl, rfl,
    c10_str_noninterference w0 w0alt rfl rfl rfl rfl rfl⟩

/-- C6: every `make_key` call appends one retained entry, deduplicating
nothing: a sequence of `n` calls with any key codes (repeated or not) grows
`m_keys` by exactly `n`. -/
theorem c6_key_accumulation (w : Window) (ks : List Int) :
    (run_make_keys w ks).m_keys.length = w.m_keys.length + ks.length := by
  induction ks generalizing w with
  | nil => simp [run_make_keys]
  | cons k t ih =>
    have hstep : run_make_keys w (k :: t)
        = run_make_keys (window.make_key w k).1 t := rfl
    rw [hstep, ih]
    simp [window.make_key]
    omega

/-- C1: the derived listener identity is the callable's storage address, so
(a) two registrations from distinct callable objects (distinct addresses)
return different identities, and (b) after a fresh registration of `f` under
`ty`, `remove_event_listener ty g` removes that registration exactly when `g`
is the original callable object (same address); a structurally identical but
distinct callable (equal behaviour, different address) leaves the
registration — callback included — untouched. -/
theorem c1_listener_identity (w1 w2 w : Window) (ty1 ty2 ty : Nat)
    (f1 f2 f g : Callable)
    (hdistinct : f1.addr ≠ f2.addr)
    (hfresh : lookup_listener w ty f.addr = none) :
    (window.add_event_listener w1 ty1 f1).2
      ≠ (window.add_event_listener w2 ty2 f2).2 ∧
    (lookup_listener (window.remove_event_listener
        (window.add_event_listener w ty f).1 ty g) ty f.addr = none
      ↔ g.addr = f.addr) ∧
    (g.addr ≠ f.addr →
      lookup_listener (window.remove_event_listener
        (window.add_event_listener w ty f).1 ty g) ty f.addr
        = some f.value) := by
  obtain ⟨m, hm, hv⟩ := lookup_after_add w ty f hfresh
  have hrem : lookup_listener (window.remove_event_listener
      (window.add_event_listener w ty f).1 ty g) ty f.addr
      = if f.addr = g.addr then none else some f.value := by
    unfold window.remove_event_listener lookup_listener
    simp only [hm]
    rw [mfind_mset1_self _ _ _ _ hm]
    show mfind (merase m g.addr) f.addr
      = if f.addr = g.addr then none else some f.value
    rw [mfind_merase, hv]
  refine ⟨?_, ?_, ?_⟩
  · rw [add_ret, add_ret]
    exact hdistinct
  · rw [hrem]
    by_cases hga : g.addr = f.addr
    · simp [hga]
    · have hfa : ¬f.addr = g.addr := fun h => hga (Eq.symm h)
      simp [hfa, hga]
  · intro hga
    rw [hrem, if_neg (fun h => hga (Eq.symm h))]

theorem c1_listener_identity_witness :
    (Callable.mk 1 10).addr ≠ (Callable.mk 2 10).addr ∧
    lookup_listener w0 0 (Callable.mk 3 5).addr = none ∧
    ((window.add_event_listener w0 0 (Callable.mk 1 10)).2
        ≠ (window.add_event_listener w0 0 (Callable.mk 2 10)).2 ∧
      (lookup_listener (window.remove_event_listener
          (window.add_event_listener w0 0 (Callable.mk 3 5)).1 0
          (Callable.mk 4 5)) 0 (Callable.mk 3 5).addr = none
        ↔ (Callable.mk 4 5).addr = (Callable.mk 3 5).addr) ∧
      ((Callable.mk 4 5).addr ≠ (Callable.mk 3 5).addr →
        lookup_listener (window.remove_event_listener
          (window.add_event_listener w0 0 (Callable.mk 3 5)).1 0
          (Callable.mk 4 5)) 0 (Callable.mk 3 5).addr
          = some (Callable.mk 3 5).value)) :=
  ⟨by decide, by decide,
    c1_listener_identity w0 w0 w0 0 0 0 (Callable.mk 1 10) (Callable.mk 2 10)
      (Callable.mk 3 5) (Callable.mk 4 5) (by decide) (by decide)⟩

/-- C2: removal is idempotent: removing a listener whose identity is not
registered under the type (including when the type has no inner map at all)
is a no-op that leaves the window unchanged, and a second consecutive
removal with the same arguments has no observable effect. -/
theorem c2_remove_idempotent (w : Window) (ty : Nat) (g : Callable) :
    (lookup_listener w ty g.addr = none →
      window.remove_event_listener w ty g = w) ∧
    window.remove_event_listener (window.remove_event_listener w ty g) ty g
      = window.remove_event_listener w ty g := by
  constructor
  · intro h
    unfold lookup_listener at h
    cases he : mfind w.m_data.events ty with
    | none => simp [window.remove_event_listener, he]
    | some m =>
      rw [he] at h
      have h1 : merase m g.addr = m := merase_absent m g.addr h
      have h2 : mset1 w.m_data.events ty (merase m g.addr) = w.m_data.events := by
        rw [h1]
        exact mset1_self _ _ _ he
      simp [window.remove_event_listener, he, h2]
  · cases he : mfind w.m_data.events ty with
    | none =>
      have h0 : window.remove_event_listener w ty g = w := by
        simp [window.remove_event_listener, he]
      rw [h0]
      exact h0
    | some m =>
      have h0 : window.remove_event_listener w ty g
          = { w with m_data := { w.m_data with
              events := mset1 w.m_data.events ty (merase m g.addr) } } := by
        simp [window.remove_event_listener, he]
      rw [h0]
      have he2 : mfind (mset1 w.m_data.events ty (merase m g.addr)) ty
          = some (merase m g.addr) := mfind_mset1_self _ _ _ _ he
      have h3 : mfind (merase m g.addr) g.addr = none := by
        rw [mfind_merase]
        simp
      have h5 : mset1 (mset1 w.m_data.events ty (merase m g.addr)) ty
            (merase (merase m g.addr) g.addr)
          = mset1 w.m_data.events ty (merase m g.addr) := by
        rw [merase_absent _ _ h3]
        exact mset1_self _ _ _ he2
      simp [window.remove_event_listener, he2, h5]

theorem c2_remove_idempotent_witness :
    lookup_listener w0 0 (Callable.mk 1 1).addr = none ∧
    window.remove_event_listener w0 0 (Callable.mk 1 1) = w0 ∧
    window.remove_event_listener
        (window.remove_event_listener w0 0 (Callable.mk 1 1)) 0
        (Callable.mk 1 1)
      = window.remove_event_listener w0 0 (Callable.mk 1 1) :=
  ⟨by decide, (c2_remove_idempotent w0 0 (Callable.mk 1 1)).1 (by decide),
    (c2_remove_idempotent w0 0 (Callable.mk 1 1)).2⟩

/-- C9: when a registration with the derived identity already exists under a
type, a further `add_event_listener` with a callable at that same address is
silently dropped: `unordered_map::insert` keeps the previously stored
callback, and the call still returns that identity. -/
theorem c9_duplicate_add (w : Window) (ty : Nat) (f : Callable) (cb : Nat)
    (hreg : lookup_listener w ty f.addr = some cb) :
    lookup_listener (window.add_event_listener w ty f).1 ty f.addr = some cb ∧
    (window.add_event_listener w ty f).2 = f.addr := by
  refine ⟨?_, add_ret w ty f⟩
  unfold lookup_listener at hreg
  cases he : mfind w.m_data.events ty with
  | none =>
    rw [he] at hreg
    have hcontra : (none : Option Nat) = some cb := hreg
    simp at hcontra
  | some m =>
    rw [he] at hreg
    have hreg2 : mfind m f.addr = some cb := hreg
    have hi : minsert m f.addr f.value = m := by
      simp [minsert, hreg2]
    have hms : mset1 w.m_data.events ty (minsert m f.addr f.value)
        = w.m_data.events := by
      rw [hi]
      exact mset1_self _ _ _ he
    simp [window.add_event_listener, lookup_listener, he, hms, hreg2]

/-- A window with one listener (identity 5, callback behaviour 7) registered
under type 0 (used as a witness input). -/
def wreg : Window := (window.add_event_listener w0 0 (Callable.mk 5 7)).1

theorem c9_duplicate_add_witness :
    lookup_listener wreg 0 (Callable.mk 5 9).addr = some 7 ∧
    lookup_listener (window.add_event_listener wreg 0 (Callable.mk 5 9)).1 0
      (Callable.mk 5 9).addr = some 7 ∧
    (window.add_event_listener wreg 0 (Callable.mk 5 9)).2
      = (Callable.mk 5 9).addr :=
  ⟨by decide,
    (c9_duplicate_add wreg 0 (Callable.mk 5 9) 7 (by decide)).1,
    (c9_duplicate_add wreg 0 (Callable.mk 5 9) 7 (by decide)).2⟩

theorem release_ext_heap_length (w : Window) (i : Nat) :
    (release_ext w i).heap.length = w.heap.length := by
  simp [release_ext]

theorem alive_after_releases (w : Window) (i : Nat) (rels : List Nat)
    (h1 : i ∈ w.m_keys) (h2 : i < w.heap.length) :
    keyAlive (rels.foldl release_ext w) i := by
  induction rels generalizing w with
  | nil =>
    refine ⟨h2, ?_⟩
    simp only [List.foldl_nil]
    have hc := List.count_pos_iff.mpr h1
    omega
  | cons r t ih =>
    exact ih (release_ext w r) h1
      (by rw [release_ext_heap_length]; exact h2)

/-- C7: `make_key(K)` returns a non-null shared reference (a valid index into
the allocation list) to a KeyState wrapping `K`; the window retains that same
reference in `m_keys`, so after any sequence of external releases the object
is still alive. -/
theorem c7_make_key_shared (w : Window) (k : Int) (rels : List Nat) :
    (window.make_key w k).2 < (window.make_key w k).1.heap.length ∧
    (heapObj (window.make_key w k).1 (window.make_key w k).2).key = k ∧
    (window.make_key w k).2 ∈ (window.make_key w k).1.m_keys ∧
    keyAlive (rels.foldl release_ext (window.make_key w k).1)
      (window.make_key w k).2 := by
  refine ⟨?_, ?_, ?_, ?_⟩
  · simp [window.make_key]
  · simp [window.make_key, heapObj, List.getD, List.getElem?_concat_length]
  · simp [window.make_key]
  · exact alive_after_releases _ _ rels (by simp [window.make_key])
      (by simp [window.make_key])
